import Mathlib

/-!
Verification development for a minimal LangGraph agent script (src/main.py).

The script wires one model node ("agent", `call_model`), one tool node
("tools", a `ToolNode` over the single registered tool `adder`), and a
conditional edge `should_continue` that routes to "tools" when the latest
reply carries tool calls and to END otherwise.  The transcript is a list of
messages combined with the `operator.add` reducer, i.e. list append.

Parts executed by the imported orchestration library (the `ToolNode` body,
the graph engine and its iteration ceiling) are not present in src; where a
definition is reconstructed from the specification rather than from source
text, its doc comment says so explicitly.
-/

namespace LuhAgent

/-- A tool-call request carried by a model reply: tool name, argument
mapping, and a call identifier (mirrors the dictionaries in
`last_message.tool_calls` in src/main.py). -/
structure ToolCall where
  name : String
  args : List (String × Int)
  id : String
deriving DecidableEq, Repr

/-- Conversation messages: `HumanMessage`, the model reply (`AIMessage`,
optional text plus ordered tool calls), and `ToolMessage` (the result of a
tool call, tagged with the call identifier it answers). -/
inductive Message where
  | human (content : String)
  | modelReply (content : String) (tool_calls : List ToolCall)
  | toolResult (tool_call_id : String) (content : String)
deriving DecidableEq, Repr

/-- The call list of a model reply, empty for other message kinds.  This
total accessor is used only by the spec-modelled Act step (`tool_node`),
which only ever reads the latest model reply; the raw Python attribute
access performed by `should_continue` is modelled fallibly by
`Message.read_tool_calls` below. -/
def Message.tool_calls : Message → List ToolCall
  | .modelReply _ tcs => tcs
  | _ => []

/-- Python runtime errors surfaced by the embedded fragments. -/
inductive PyErr where
  | indexError
  | attributeError
deriving DecidableEq, Repr

/-- The Python attribute access `message.tool_calls`: only the model reply
(an `AIMessage`) carries the attribute; on `HumanMessage` or `ToolMessage`
the access raises AttributeError. -/
def Message.read_tool_calls : Message → Except PyErr (List ToolCall)
  | .modelReply _ tcs => .ok tcs
  | _ => .error .attributeError

/-- What the model collaborator returns for one invocation: text content and
an ordered list of requested tool calls (an `AIMessage`). -/
structure ModelReplyData where
  content : String
  tool_calls : List ToolCall
deriving DecidableEq, Repr

/-- A deterministic model collaborator: full transcript in, one reply out
(`model.invoke(messages)` in src/main.py, treated as an opaque function). -/
def Oracle : Type := List Message → ModelReplyData

/-- The reply message the agent node appends for a given transcript. -/
def replyMsg (oracle : Oracle) (msgs : List Message) : Message :=
  .modelReply (oracle msgs).content (oracle msgs).tool_calls

/-- The Brain Node of src/main.py: read the history, ask the model, return
the single-message update to be appended by the `operator.add` reducer. -/
def call_model (oracle : Oracle) (msgs : List Message) : List Message :=
  [replyMsg oracle msgs]

/-- A registered tool: unique name plus an invocation function from an
argument mapping to a result value or a failure. -/
structure ToolSpec where
  name : String
  run : List (String × Int) → Except String Int

/-- Look up one argument by name in an argument mapping. -/
def lookupArg (args : List (String × Int)) (k : String) : Option Int :=
  (args.find? (fun p => p.1 = k)).map Prod.snd

/-- The `adder` tool of src/main.py lines 23-27: adds two integers (the
console notice it prints is a side effect outside the transcript). -/
def adder (a : Int) (b : Int) : Int :=
  a + b

/-- The registered form of `adder`.  The argument-schema check (reject a
call whose mapping lacks `a` or `b`) is performed by the runtime derived
schema, not by code in src; it follows the dispatch contract of the spec. -/
def adderSpec : ToolSpec where
  name := "adder"
  run := fun args =>
    match lookupArg args "a", lookupArg args "b" with
    | some a, some b => .ok (adder a b)
    | _, _ => .error "InvalidArguments"

/-- Modelled from the spec: execution of one ToolCall at the tool-dispatch
boundary (the body of the imported `ToolNode` is not in src).  Resolve a
ToolSpec by name; an unknown name is recorded as a ToolResult carrying an
error payload (not fatal), an argument failure likewise; a successful call
yields a ToolResult with the rendered value.  The result always references
the call identifier of the request. -/
def execCall (registry : List ToolSpec) (tc : ToolCall) : Message :=
  match registry.find? (fun t => t.name = tc.name) with
  | some t =>
    match t.run tc.args with
    | .ok v => .toolResult tc.id (toString v)
    | .error e => .toolResult tc.id ("Error: " ++ e)
  | none => .toolResult tc.id ("Error: " ++ tc.name ++ " is not a valid tool")

/-- Modelled from the spec: the "tools" node (the imported `ToolNode` over
the registered tools).  It executes the tool calls of the latest message,
strictly in the order they appear, and returns their results in that same
order, to be appended by the reducer. -/
def tool_node (registry : List ToolSpec) (msgs : List Message) : List Message :=
  match msgs.getLast? with
  | some m => m.tool_calls.map (execCall registry)
  | none => []

/-- The two routes the conditional edge can take: the "tools" node or END. -/
inductive Route where
  | tools
  | stop
deriving DecidableEq, Repr

/-- src/main.py lines 53-58: read `state["messages"][-1]` (an IndexError on
an empty list), access its `tool_calls` attribute (an AttributeError when
the final message is not a model reply), and route to "tools" when that
list is non-empty, to END otherwise. -/
def should_continue (msgs : List Message) : Except PyErr Route :=
  match msgs.getLast? with
  | none => .error .indexError
  | some last_message =>
    match last_message.read_tool_calls with
    | .error e => .error e
    | .ok tcs => if tcs ≠ [] then .ok .tools else .ok .stop

/-- Position of the controller inside the compiled graph: about to run the
agent node, about to run the tools node, or halted at END. -/
inductive NodeState where
  | deciding
  | acting
  | done
deriving DecidableEq, Repr

/-- A controller configuration: graph position plus the transcript. -/
structure Config where
  node : NodeState
  messages : List Message
deriving DecidableEq, Repr

/-- One superstep of the compiled graph, as a function.  At the agent node
the model reply is appended and `should_continue` picks the next node; at
the tools node the tool results are appended and control returns to the
agent node (the `tools → agent` edge); END is absorbing. -/
def step (oracle : Oracle) (registry : List ToolSpec) : Config → Except PyErr Config
  | ⟨.deciding, msgs⟩ =>
    match should_continue (msgs ++ call_model oracle msgs) with
    | .error e => .error e
    | .ok .tools => .ok ⟨.acting, msgs ++ call_model oracle msgs⟩
    | .ok .stop => .ok ⟨.done, msgs ++ call_model oracle msgs⟩
  | ⟨.acting, msgs⟩ => .ok ⟨.deciding, msgs ++ tool_node registry msgs⟩
  | ⟨.done, msgs⟩ => .ok ⟨.done, msgs⟩

/-- Run the graph for at most `fuel` supersteps (the fuel is only a
termination device for the embedding; END is absorbing). -/
def runGraph (oracle : Oracle) (registry : List ToolSpec) :
    Nat → Config → Except PyErr Config
  | 0, c => .ok c
  | n + 1, c =>
    if c.node = .done then .ok c
    else (step oracle registry c).bind (runGraph oracle registry n)

/-- The compiled graph as a small-step relation, mirroring the conditional
edges of src/main.py lines 60-66: from the agent node, `should_continue`
routes to "tools" or to END after the reply is appended; from the tools node
the results are appended and the fixed edge returns to the agent node.  END
has no outgoing transition. -/
inductive StepRel (oracle : Oracle) (registry : List ToolSpec) : Config → Config → Prop where
  | decide_tools (msgs : List Message) :
      should_continue (msgs ++ call_model oracle msgs) = .ok .tools →
      StepRel oracle registry ⟨.deciding, msgs⟩ ⟨.acting, msgs ++ call_model oracle msgs⟩
  | decide_stop (msgs : List Message) :
      should_continue (msgs ++ call_model oracle msgs) = .ok .stop →
      StepRel oracle registry ⟨.deciding, msgs⟩ ⟨.done, msgs ++ call_model oracle msgs⟩
  | act (msgs : List Message) :
      StepRel oracle registry ⟨.acting, msgs⟩ ⟨.deciding, msgs ++ tool_node registry msgs⟩

/-- Reachability through the graph: zero or more supersteps. -/
def Reaches (oracle : Oracle) (registry : List ToolSpec) : Config → Config → Prop :=
  Relation.ReflTransGen (StepRel oracle registry)

/-- The initial configuration: entry point is the agent node, transcript
seeded with one Human message (src/main.py lines 51 and 75). -/
def initConfig (h0 : String) : Config :=
  ⟨.deciding, [.human h0]⟩

/-- Outcome of a bounded run: normal termination at END with the final
transcript, or the hard stop once the cycle ceiling is hit. -/
inductive RunOutcome where
  | finished (transcript : List Message)
  | cycleLimitExceeded (transcript : List Message)

/-- Modelled from the spec: the run loop under a configurable `max_cycles`
ceiling.  The iteration ceiling is enforced by the imported graph engine,
not by code in src; this runner follows the controller of the spec: each
cycle is one Decide step (append the reply) followed, when the reply
requests tools, by one Act step (append the results); when the budget is
exhausted while the model is still emitting tool calls, the run hard-stops
with `CycleLimitExceeded`, returning the transcript accumulated so far. -/
def runWithLimit (oracle : Oracle) (registry : List ToolSpec) :
    Nat → List Message → RunOutcome
  | 0, msgs =>
    if (oracle msgs).tool_calls = [] then .finished (msgs ++ [replyMsg oracle msgs])
    else .cycleLimitExceeded (msgs ++ [replyMsg oracle msgs])
  | n + 1, msgs =>
    if (oracle msgs).tool_calls = [] then .finished (msgs ++ [replyMsg oracle msgs])
    else
      runWithLimit oracle registry n
        ((msgs ++ [replyMsg oracle msgs]) ++ tool_node registry (msgs ++ [replyMsg oracle msgs]))

/-- Number of model replies in a transcript (one per completed Decide step). -/
def countReplies : List Message → Nat
  | [] => 0
  | .modelReply _ _ :: rest => countReplies rest + 1
  | _ :: rest => countReplies rest

/-- Scan a transcript left to right carrying the list of still-unanswered
tool calls of the most recent model reply.  Every ToolResult must answer the
FIRST still-pending call (so identifiers match and results come in exactly
the order of the calls), and every Human or ModelReply message may only
appear once all pending calls are answered (so results land before the next
Decide step observes the transcript).  Returns the remaining pending calls,
or `none` on a violation. -/
def wfScan : List Message → List ToolCall → Option (List ToolCall)
  | [], pending => some pending
  | .human _ :: rest, pending =>
    if pending.isEmpty then wfScan rest [] else none
  | .modelReply _ tcs :: rest, pending =>
    if pending.isEmpty then wfScan rest tcs else none
  | .toolResult id _ :: rest, tc :: pending =>
    if id = tc.id then wfScan rest pending else none
  | .toolResult _ _ :: _, [] => none

/-- A transcript is well formed when the scan succeeds starting from no
pending calls. -/
def resultsWellFormed (msgs : List Message) : Bool :=
  (wfScan msgs []).isSome

/-- Python truthiness of `os.getenv`: `None` (unset) and the empty string
are both falsy. -/
def pyTruthy : Option String → Bool
  | none => false
  | some s => s ≠ ""

/-- What startup produces: an early `exit(1)` with nothing constructed, or
a process that proceeded to build the tool registry, model and graph. -/
inductive StartupQuit where
  | exited (code : Nat)
  | ready (registry : List ToolSpec)

/-- src/main.py lines 15-18: if `os.getenv("GOOGLE_API_KEY")` is falsy the
script prints a notice and exits with status 1; otherwise it continues and
builds the tools, the model binding and the graph (lines 20-68). -/
def startup (env : String → Option String) : StartupQuit :=
  if pyTruthy (env "GOOGLE_API_KEY") then .ready [adderSpec]
  else .exited 1

/-- A stub collaborator for the demonstration scenario: request
`adder(a=55,b=108)` on the first Decide step, then answer with the text
"163" and no tool calls. -/
def demoOracle : Oracle := fun msgs =>
  if countReplies msgs = 0 then
    ⟨"", [⟨"adder", [("a", 55), ("b", 108)], "call_1"⟩]⟩
  else ⟨"163", []⟩

/-- A collaborator that never stops asking for tools (for the cycle-limit
boundary). -/
def busyOracle : Oracle := fun _ =>
  ⟨"", [⟨"adder", [("a", 1), ("b", 2)], "loop"⟩]⟩

/-- A collaborator that answers immediately with no tool calls. -/
def quietOracle : Oracle := fun _ => ⟨"163", []⟩

/-- An environment whose GOOGLE_API_KEY is set, but to the empty string. -/
def envEmptyKey : String → Option String :=
  fun k => if k = "GOOGLE_API_KEY" then some "" else none

/-- An environment whose GOOGLE_API_KEY is set to a non-empty value. -/
def envGood : String → Option String :=
  fun k => if k = "GOOGLE_API_KEY" then some "abc123" else none

theorem tool_calls_replyMsg (oracle : Oracle) (msgs : List Message) :
    (replyMsg oracle msgs).tool_calls = (oracle msgs).tool_calls := rfl

theorem should_continue_last (msgs : List Message) (m : Message) :
    should_continue (msgs ++ [m]) =
      (match m.read_tool_calls with
        | .error e => .error e
        | .ok tcs => if tcs ≠ [] then .ok .tools else .ok .stop) := by
  unfold should_continue
  rw [List.getLast?_append_cons]
  simp [List.getLast?]

theorem should_continue_concat_reply (msgs : List Message) (txt : String)
    (tcs : List ToolCall) :
    should_continue (msgs ++ [.modelReply txt tcs]) =
      .ok (if tcs ≠ [] then Route.tools else Route.stop) := by
  rw [should_continue_last]
  by_cases hc : tcs = [] <;> simp [Message.read_tool_calls, hc]

theorem should_continue_attr_fails (msgs : List Message) (m : Message)
    (hm : m.read_tool_calls = .error .attributeError) :
    should_continue (msgs ++ [m]) = .error .attributeError := by
  rw [should_continue_last, hm]

theorem step_deciding (oracle : Oracle) (registry : List ToolSpec) (msgs : List Message) :
    step oracle registry ⟨.deciding, msgs⟩ =
      .ok ⟨if (oracle msgs).tool_calls = [] then .done else .acting,
           msgs ++ [replyMsg oracle msgs]⟩ := by
  by_cases hc : (oracle msgs).tool_calls = [] <;>
    simp [step, call_model, replyMsg, should_continue_concat_reply, hc]

theorem step_acting (oracle : Oracle) (registry : List ToolSpec) (msgs : List Message) :
    step oracle registry ⟨.acting, msgs⟩ = .ok ⟨.deciding, msgs ++ tool_node registry msgs⟩ :=
  rfl

theorem tool_node_concat (registry : List ToolSpec) (msgs : List Message) (m : Message) :
    tool_node registry (msgs ++ [m]) = m.tool_calls.map (execCall registry) := by
  unfold tool_node
  rw [List.getLast?_append_cons]
  rfl

theorem stepRel_messages {oracle : Oracle} {registry : List ToolSpec} {c c' : Config}
    (h : StepRel oracle registry c c') :
    ∃ new, c'.messages = c.messages ++ new := by
  cases h with
  | decide_tools msgs _ => exact ⟨call_model oracle msgs, rfl⟩
  | decide_stop msgs _ => exact ⟨call_model oracle msgs, rfl⟩
  | act msgs => exact ⟨tool_node registry msgs, rfl⟩

theorem stepRel_det {oracle : Oracle} {registry : List ToolSpec} {c d d' : Config}
    (h1 : StepRel oracle registry c d) (h2 : StepRel oracle registry c d') : d = d' := by
  cases h1 <;> cases h2 <;> simp_all

theorem done_terminal (oracle : Oracle) (registry : List ToolSpec)
    (msgs : List Message) (c : Config) : ¬ StepRel oracle registry ⟨.done, msgs⟩ c := by
  intro h
  cases h

theorem runsTo_unique {α : Type} {r : α → α → Prop}
    (hdet : ∀ a b b' : α, r a b → r a b' → b = b')
    {a b b' : α}
    (h1 : Relation.ReflTransGen r a b) (h2 : Relation.ReflTransGen r a b')
    (hb : ∀ c, ¬ r b c) (hb' : ∀ c, ¬ r b' c) : b = b' := by
  revert h2
  induction h1 using Relation.ReflTransGen.head_induction_on with
  | refl =>
    intro h2
    rcases h2.cases_head with h | ⟨c, hc, _⟩
    · exact h
    · exact absurd hc (hb c)
  | head hac hcb ih =>
    intro h2
    rcases h2.cases_head with h | ⟨c', hc', h2'⟩
    · exact absurd (h ▸ hac) (hb' _)
    · exact ih (hdet _ _ _ hac hc' ▸ h2')

theorem countReplies_append (xs ys : List Message) :
    countReplies (xs ++ ys) = countReplies xs + countReplies ys := by
  induction xs with
  | nil => simp [countReplies]
  | cons m rest ih =>
    cases m <;> (simp [countReplies, ih]; try omega)

theorem execCall_shape (registry : List ToolSpec) (tc : ToolCall) :
    ∃ v, execCall registry tc = .toolResult tc.id v := by
  cases hf : registry.find? (fun t => t.name = tc.name) with
  | none =>
    exact ⟨"Error: " ++ tc.name ++ " is not a valid tool", by simp [execCall, hf]⟩
  | some t =>
    cases hr : t.run tc.args with
    | ok v => exact ⟨toString v, by simp [execCall, hf, hr]⟩
    | error e => exact ⟨"Error: " ++ e, by simp [execCall, hf, hr]⟩

theorem wfScan_append (xs ys : List Message) (p : List ToolCall) :
    wfScan (xs ++ ys) p = (wfScan xs p).bind (fun q => wfScan ys q) := by
  induction xs generalizing p with
  | nil => simp [wfScan]
  | cons m rest ih =>
    cases m with
    | human c => by_cases hp : p.isEmpty <;> simp [wfScan, hp, ih]
    | modelReply c tcs => by_cases hp : p.isEmpty <;> simp [wfScan, hp, ih]
    | toolResult i v =>
      cases p with
      | nil => simp [wfScan]
      | cons tc pending => by_cases hi : i = tc.id <;> simp [wfScan, hi, ih]

theorem wfScan_results (registry : List ToolSpec) (tcs : List ToolCall) :
    wfScan (tcs.map (execCall registry)) tcs = some [] := by
  induction tcs with
  | nil => rfl
  | cons tc rest ih =>
    obtain ⟨v, hv⟩ := execCall_shape registry tc
    simp only [List.map_cons, hv, wfScan, if_pos rfl]
    exact ih

theorem should_continue_call_model (oracle : Oracle) (msgs : List Message) :
    should_continue (msgs ++ call_model oracle msgs) =
      .ok (if (oracle msgs).tool_calls ≠ [] then Route.tools else Route.stop) := by
  rw [show call_model oracle msgs =
      [Message.modelReply (oracle msgs).content (oracle msgs).tool_calls] from rfl,
    should_continue_concat_reply]

theorem stepRel_deciding_inv {oracle : Oracle} {registry : List ToolSpec}
    {msgs : List Message} {c : Config}
    (h : StepRel oracle registry ⟨.deciding, msgs⟩ c) :
    c.messages = msgs ++ call_model oracle msgs ∧
      ((c.node = .acting ∧ (oracle msgs).tool_calls ≠ []) ∨
        (c.node = .done ∧ (oracle msgs).tool_calls = [])) := by
  cases h with
  | decide_tools _ hroute =>
    rw [should_continue_call_model] at hroute
    refine ⟨rfl, .inl ⟨rfl, ?_⟩⟩
    by_cases hc : (oracle msgs).tool_calls = [] <;> simp [hc] at hroute ⊢
  | decide_stop _ hroute =>
    rw [should_continue_call_model] at hroute
    refine ⟨rfl, .inr ⟨rfl, ?_⟩⟩
    by_cases hc : (oracle msgs).tool_calls = [] <;> simp [hc] at hroute ⊢

/-- The correlation invariant carried by the controller: at the agent node
and at END every tool call of every reply so far is answered; at the tools
node the transcript ends with the reply whose calls are the still-pending
ones. -/
def Inv : Config → Prop
  | ⟨.acting, msgs⟩ =>
    ∃ pre txt tcs, msgs = pre ++ [Message.modelReply txt tcs] ∧
      wfScan msgs [] = some tcs
  | ⟨.deciding, msgs⟩ => wfScan msgs [] = some []
  | ⟨.done, msgs⟩ => wfScan msgs [] = some []

theorem inv_step {oracle : Oracle} {registry : List ToolSpec} {c c' : Config}
    (h : StepRel oracle registry c c') (hc : Inv c) : Inv c' := by
  cases h with
  | decide_tools msgs hroute =>
    have hw : wfScan msgs [] = some [] := hc
    refine ⟨msgs, (oracle msgs).content, (oracle msgs).tool_calls, rfl, ?_⟩
    rw [show call_model oracle msgs = [replyMsg oracle msgs] from rfl, wfScan_append, hw]
    simp [wfScan, replyMsg]
  | decide_stop msgs hroute =>
    have hw : wfScan msgs [] = some [] := hc
    rw [should_continue_call_model] at hroute
    have hcalls : (oracle msgs).tool_calls = [] := by
      by_cases hcc : (oracle msgs).tool_calls = [] <;> simp [hcc] at hroute ⊢
    show wfScan (msgs ++ call_model oracle msgs) [] = some []
    rw [show call_model oracle msgs = [replyMsg oracle msgs] from rfl, wfScan_append, hw]
    simp [wfScan, replyMsg, hcalls]
  | act msgs =>
    obtain ⟨pre, txt, tcs, hmsgs, hw⟩ := hc
    show wfScan (msgs ++ tool_node registry msgs) [] = some []
    subst hmsgs
    rw [tool_node_concat, wfScan_append, hw]
    show wfScan ((Message.modelReply txt tcs).tool_calls.map (execCall registry)) tcs = some []
    exact wfScan_results registry tcs

theorem inv_reaches {oracle : Oracle} {registry : List ToolSpec} {h0 : String} {c : Config}
    (h : Reaches oracle registry (initConfig h0) c) : Inv c := by
  induction h with
  | refl => rfl
  | tail _ hstep ih => exact inv_step hstep ih

theorem reaches_nonempty {oracle : Oracle} {registry : List ToolSpec} {h0 : String} {c : Config}
    (h : Reaches oracle registry (initConfig h0) c) : c.messages ≠ [] := by
  induction h with
  | refl => simp [initConfig]
  | tail _ hstep ih =>
    obtain ⟨new, hnew⟩ := stepRel_messages hstep
    rw [hnew]
    exact fun hcontra => ih (List.append_eq_nil.mp hcontra).1

theorem runGraph_succ (oracle : Oracle) (registry : List ToolSpec) (n : Nat) (c : Config) :
    runGraph oracle registry (n + 1) c =
      if c.node = .done then .ok c
      else (step oracle registry c).bind (runGraph oracle registry n) := rfl

/-- C1: a Decide step appends the model reply and moves to the tools node
exactly when the reply carries one or more tool calls, and to END exactly
when it carries none; any successor of the agent node has that appended
transcript and is one of those two nodes, and END has no successor, so the
loop halts at the first Decide step whose reply has no tool calls. -/
theorem decide_transition_iff (oracle : Oracle) (registry : List ToolSpec)
    (msgs : List Message) :
    (StepRel oracle registry ⟨.deciding, msgs⟩
        ⟨.acting, msgs ++ call_model oracle msgs⟩ ↔ (oracle msgs).tool_calls ≠ []) ∧
    (StepRel oracle registry ⟨.deciding, msgs⟩
        ⟨.done, msgs ++ call_model oracle msgs⟩ ↔ (oracle msgs).tool_calls = []) ∧
    (∀ c, StepRel oracle registry ⟨.deciding, msgs⟩ c →
      c.messages = msgs ++ call_model oracle msgs ∧
        (c.node = .acting ∨ c.node = .done)) ∧
    (∀ ms c, ¬ StepRel oracle registry ⟨.done, ms⟩ c) := by
  refine ⟨⟨?_, ?_⟩, ⟨?_, ?_⟩, ?_, ?_⟩
  · intro h
    rcases stepRel_deciding_inv h with ⟨_, ⟨_, hc⟩ | ⟨hnode, _⟩⟩
    · exact hc
    · simp at hnode
  · intro hc
    refine StepRel.decide_tools msgs ?_
    rw [should_continue_call_model]
    simp [hc]
  · intro h
    rcases stepRel_deciding_inv h with ⟨_, ⟨hnode, _⟩ | ⟨_, hc⟩⟩
    · simp at hnode
    · exact hc
  · intro hc
    refine StepRel.decide_stop msgs ?_
    rw [should_continue_call_model]
    simp [hc]
  · intro c h
    rcases stepRel_deciding_inv h with ⟨hmsg, ⟨hnode, _⟩ | ⟨hnode, _⟩⟩
    · exact ⟨hmsg, .inl hnode⟩
    · exact ⟨hmsg, .inr hnode⟩
  · exact fun ms c => done_terminal oracle registry ms c

theorem runGraph_length_aux (oracle : Oracle) (registry : List ToolSpec) (N : Nat)
    (hcall : ∀ ms, countReplies ms < N → ((oracle ms).tool_calls).length = 1)
    (hstop : ∀ ms, countReplies ms = N → (oracle ms).tool_calls = []) :
    ∀ n msgs, countReplies msgs + n = N → msgs.length = 1 + 2 * countReplies msgs →
      ∃ t, runGraph oracle registry (2 * n + 1) ⟨.deciding, msgs⟩ = .ok ⟨.done, t⟩ ∧
        t.length = 2 * N + 2 := by
  intro n
  induction n with
  | zero =>
    intro msgs hcount hlen
    have hc : (oracle msgs).tool_calls = [] := hstop msgs (by omega)
    refine ⟨msgs ++ [replyMsg oracle msgs], ?_, ?_⟩
    · show runGraph oracle registry (0 + 1) ⟨.deciding, msgs⟩ = _
      rw [runGraph_succ, step_deciding]
      simp [hc, runGraph, Except.bind]
    · simp
      omega
  | succ n ih =>
    intro msgs hcount hlen
    have hlt : countReplies msgs < N := by omega
    obtain ⟨tc, htc⟩ := List.length_eq_one.mp (hcall msgs hlt)
    have e1 : step oracle registry ⟨.deciding, msgs⟩ =
        .ok ⟨.acting, msgs ++ [replyMsg oracle msgs]⟩ := by
      rw [step_deciding, htc]
      simp
    have e2 : tool_node registry (msgs ++ [replyMsg oracle msgs]) = [execCall registry tc] := by
      rw [tool_node_concat, tool_calls_replyMsg, htc]
      rfl
    obtain ⟨v, hv⟩ := execCall_shape registry tc
    have hc3 : countReplies ((msgs ++ [replyMsg oracle msgs]) ++ [execCall registry tc]) =
        countReplies msgs + 1 := by
      rw [countReplies_append, countReplies_append, hv]
      simp [countReplies, replyMsg]
    have hl3 : ((msgs ++ [replyMsg oracle msgs]) ++ [execCall registry tc]).length =
        msgs.length + 2 := by
      simp
    obtain ⟨t, ht, htlen⟩ :=
      ih ((msgs ++ [replyMsg oracle msgs]) ++ [execCall registry tc])
        (by omega) (by omega)
    refine ⟨t, ?_, htlen⟩
    have hfuel : 2 * (n + 1) + 1 = (2 * n + 1) + 1 + 1 := by ring
    rw [hfuel, runGraph_succ, e1]
    show runGraph oracle registry ((2 * n + 1) + 1) ⟨.acting, msgs ++ [replyMsg oracle msgs]⟩ = _
    rw [runGraph_succ, step_acting, e2]
    exact ht

/-- C2: when the model requests exactly one tool call on each of its first
N replies and none on reply N + 1, the run reaches END with a transcript of
exactly 1 + 2N + 1 messages: the initial Human message, N reply/result
pairs, and the final reply (for N = 0 that is exactly 2 messages). -/
theorem transcript_length (oracle : Oracle) (registry : List ToolSpec) (N : Nat)
    (h0 : String)
    (hcall : ∀ ms, countReplies ms < N → ((oracle ms).tool_calls).length = 1)
    (hstop : ∀ ms, countReplies ms = N → (oracle ms).tool_calls = []) :
    ∃ t, runGraph oracle registry (2 * N + 1) (initConfig h0) = .ok ⟨.done, t⟩ ∧
      t.length = 1 + 2 * N + 1 := by
  obtain ⟨t, ht, htlen⟩ :=
    runGraph_length_aux oracle registry N hcall hstop N [.human h0]
      (by simp [countReplies]) (by simp [countReplies])
  exact ⟨t, ht, by omega⟩

/-- C6: the bounded runner takes a configurable `max_cycles`; whenever the
model is still emitting tool calls when the budget runs out, the run
hard-stops with CycleLimitExceeded, and the returned partial transcript is
the transcript so far: it is non-empty and its last entry is the last
successfully appended message (the final model reply). -/
theorem cycle_limit_hard_stop (oracle : Oracle) (registry : List ToolSpec)
    (max_cycles : Nat) (msgs : List Message)
    (hbusy : ∀ ms, (oracle ms).tool_calls ≠ []) :
    ∃ pre, runWithLimit oracle registry max_cycles msgs =
        .cycleLimitExceeded (pre ++ [replyMsg oracle pre]) ∧
      pre ++ [replyMsg oracle pre] ≠ [] ∧
      (pre ++ [replyMsg oracle pre]).getLast? = some (replyMsg oracle pre) := by
  have hlast : ∀ pre : List Message,
      (pre ++ [replyMsg oracle pre]).getLast? = some (replyMsg oracle pre) := by
    intro pre
    rw [List.getLast?_append_cons]
    rfl
  induction max_cycles generalizing msgs with
  | zero =>
    refine ⟨msgs, ?_, by simp, hlast msgs⟩
    simp [runWithLimit, hbusy msgs]
  | succ n ih =>
    obtain ⟨pre, hpre, hne, hl⟩ :=
      ih ((msgs ++ [replyMsg oracle msgs]) ++ tool_node registry (msgs ++ [replyMsg oracle msgs]))
    refine ⟨pre, ?_, hne, hl⟩
    rw [show runWithLimit oracle registry (n + 1) msgs =
        (if (oracle msgs).tool_calls = [] then
          RunOutcome.finished (msgs ++ [replyMsg oracle msgs])
        else runWithLimit oracle registry n
          ((msgs ++ [replyMsg oracle msgs]) ++
            tool_node registry (msgs ++ [replyMsg oracle msgs]))) from rfl]
    rw [if_neg (hbusy msgs)]
    exact hpre

/-- C3: in every configuration reachable from a seeded initial transcript,
the transcript is well formed: every ToolResult answers, in order, the next
still-unanswered tool call of the immediately preceding model reply, and a
new reply (a Decide step) only ever follows once all calls of the previous
reply are answered. -/
theorem reachable_results_wellformed (oracle : Oracle) (registry : List ToolSpec)
    (h0 : String) (c : Config)
    (hreach : Reaches oracle registry (initConfig h0) c) :
    resultsWellFormed c.messages = true := by
  have hinv := inv_reaches hreach
  rcases c with ⟨node, msgs⟩
  cases node with
  | deciding => simp [resultsWellFormed, show wfScan msgs [] = some [] from hinv]
  | done => simp [resultsWellFormed, show wfScan msgs [] = some [] from hinv]
  | acting =>
    obtain ⟨pre, txt, tcs, _, hw⟩ := hinv
    simp [resultsWellFormed, hw]

/-- C4: the registered adder tool returns a + b for all integers, and in
the demonstration scenario (Human asks for 55 + 108, the stubbed model
requests adder(a=55,b=108) and then answers "163") the tool result carries
the value 163 and the run ends at END with the expected four messages. -/
theorem adder_correct (a b : Int) :
    adder a b = a + b ∧
    adderSpec.run [("a", a), ("b", b)] = .ok (a + b) ∧
    runGraph demoOracle [adderSpec] 3 (initConfig "What\x27s 55 + 108") =
      .ok ⟨.done, [.human "What\x27s 55 + 108",
        .modelReply "" [⟨"adder", [("a", 55), ("b", 108)], "call_1"⟩],
        .toolResult "call_1" "163",
        .modelReply "163" []]⟩ :=
  ⟨rfl, rfl, rfl⟩

/-- C5: the transcript is append-only: every graph transition takes the
transcript to itself with zero or more messages appended at its end. -/
theorem transcript_append_only (oracle : Oracle) (registry : List ToolSpec)
    (c c' : Config) (h : StepRel oracle registry c c') :
    ∃ new, c'.messages = c.messages ++ new :=
  stepRel_messages h

/-- C7: a tool call naming no registered tool is not fatal: it is recorded
as a ToolResult carrying an error payload, and the tools node always hands
control back to the agent node, so the next Decide step runs and the model
can recover. -/
theorem unknown_tool_recovered (oracle : Oracle) (registry : List ToolSpec)
    (tc : ToolCall) (hmiss : ∀ t ∈ registry, t.name ≠ tc.name) :
    execCall registry tc =
      .toolResult tc.id ("Error: " ++ tc.name ++ " is not a valid tool") ∧
    ∀ msgs, StepRel oracle registry ⟨.acting, msgs⟩
      ⟨.deciding, msgs ++ tool_node registry msgs⟩ := by
  constructor
  · have hf : registry.find? (fun t => t.name = tc.name) = none := by
      rw [List.find?_eq_none]
      intro t ht
      simp [hmiss t ht]
    simp [execCall, hf]
  · exact fun msgs => StepRel.act msgs

/-- C8 counterexample: reading the most recent transcript entry is NOT
total in the code: `state["messages"][-1]` on an empty transcript raises
IndexError instead of returning a defined empty result. -/
theorem last_read_empty_fails : should_continue [] = .error .indexError := rfl

/-- C8 amended: reading the most recent transcript entry is not total: on
an empty transcript the index read raises IndexError (the counterexample).
On a non-empty transcript the index read does return the final message, but
the subsequent tool_calls attribute access is only defined when that final
message is a model reply — on a Human or ToolResult message it raises
AttributeError.  At every point where the controller consults
should_continue, namely immediately after appending the model reply, it
succeeds, and every reachable configuration has a non-empty transcript, so
neither failing case is reached in a run. -/
theorem last_read_behavior (oracle : Oracle) (registry : List ToolSpec)
    (h0 : String) (msgs : List Message) (m : Message) (c : Config)
    (hreach : Reaches oracle registry (initConfig h0) c) :
    (msgs ++ [m]).getLast? = some m ∧
    should_continue (msgs ++ [m]) =
      (match m.read_tool_calls with
        | .error e => .error e
        | .ok tcs => if tcs ≠ [] then .ok .tools else .ok .stop) ∧
    should_continue (msgs ++ call_model oracle msgs) =
      .ok (if (oracle msgs).tool_calls ≠ [] then Route.tools else Route.stop) ∧
    c.messages ≠ [] :=
  ⟨by rw [List.getLast?_append_cons]; rfl,
   should_continue_last msgs m,
   should_continue_call_model oracle msgs,
   reaches_nonempty hreach⟩

/-- C9: the run is deterministic: with the same deterministic model
collaborator, tool registry and initial Human message, any two complete
runs reach END with identical transcripts. -/
theorem run_deterministic (oracle : Oracle) (registry : List ToolSpec) (h0 : String)
    (t t' : List Message)
    (h1 : Reaches oracle registry (initConfig h0) ⟨.done, t⟩)
    (h2 : Reaches oracle registry (initConfig h0) ⟨.done, t'⟩) : t = t' := by
  have hdet : ∀ a b b' : Config, StepRel oracle registry a b →
      StepRel oracle registry a b' → b = b' := fun _ _ _ hab hab' => stepRel_det hab hab'
  have h1' : Relation.ReflTransGen (StepRel oracle registry) (initConfig h0) ⟨.done, t⟩ := h1
  have h2' : Relation.ReflTransGen (StepRel oracle registry) (initConfig h0) ⟨.done, t'⟩ := h2
  have heq := runsTo_unique hdet h1' h2'
    (fun c => done_terminal oracle registry t c)
    (fun c => done_terminal oracle registry t' c)
  exact congrArg Config.messages heq

/-- C10 counterexample: the startup check uses Python truthiness, so a
GOOGLE_API_KEY that IS set, but set to the empty string, still makes the
script exit with status 1 instead of proceeding. -/
theorem startup_empty_key_exits :
    (envEmptyKey "GOOGLE_API_KEY").isSome = true ∧ startup envEmptyKey = .exited 1 :=
  ⟨rfl, rfl⟩

/-- C10 amended: when GOOGLE_API_KEY is unset or set to the empty string
the script exits with status 1 before constructing the tools, the model or
the graph; when it is set to any non-empty value startup proceeds and
builds the tool registry. -/
theorem startup_key_check (env : String → Option String) :
    ((env "GOOGLE_API_KEY" = none ∨ env "GOOGLE_API_KEY" = some "") →
      startup env = .exited 1) ∧
    (∀ s, env "GOOGLE_API_KEY" = some s → s ≠ "" →
      startup env = .ready [adderSpec]) := by
  constructor
  · rintro (h | h) <;> simp [startup, pyTruthy, h]
  · intro s hs hne
    simp [startup, pyTruthy, hs, hne]

theorem stepRel_decide_tools_eq {oracle : Oracle} {registry : List ToolSpec}
    {msgs msgs₂ : List Message}
    (h2 : msgs₂ = msgs ++ call_model oracle msgs)
    (h : should_continue msgs₂ = .ok .tools) :
    StepRel oracle registry ⟨.deciding, msgs⟩ ⟨.acting, msgs₂⟩ := by
  subst h2
  exact StepRel.decide_tools msgs h

theorem stepRel_decide_stop_eq {oracle : Oracle} {registry : List ToolSpec}
    {msgs msgs₂ : List Message}
    (h2 : msgs₂ = msgs ++ call_model oracle msgs)
    (h : should_continue msgs₂ = .ok .stop) :
    StepRel oracle registry ⟨.deciding, msgs⟩ ⟨.done, msgs₂⟩ := by
  subst h2
  exact StepRel.decide_stop msgs h

theorem stepRel_act_eq {oracle : Oracle} {registry : List ToolSpec}
    {msgs msgs₂ : List Message}
    (h2 : msgs₂ = msgs ++ tool_node registry msgs) :
    StepRel oracle registry ⟨.acting, msgs⟩ ⟨.deciding, msgs₂⟩ := by
  subst h2
  exact StepRel.act msgs

/-- Transcript after the seed message. -/
def demoT1 : List Message := [.human "hi"]

/-- The first stubbed reply: one call to adder(a=55,b=108). -/
def demoReply1 : Message := .modelReply "" [⟨"adder", [("a", 55), ("b", 108)], "call_1"⟩]

/-- Transcript after the first Decide step. -/
def demoT2 : List Message := [.human "hi", demoReply1]

/-- Transcript after the Act step appends the tool result. -/
def demoT3 : List Message := [.human "hi", demoReply1, .toolResult "call_1" "163"]

/-- Final transcript of the demonstration run. -/
def demoT4 : List Message :=
  [.human "hi", demoReply1, .toolResult "call_1" "163", .modelReply "163" []]

theorem demo_step1 :
    StepRel demoOracle [adderSpec] (initConfig "hi") ⟨.acting, demoT2⟩ :=
  stepRel_decide_tools_eq (by rfl) (by rfl)

theorem demo_step2 :
    StepRel demoOracle [adderSpec] ⟨.acting, demoT2⟩ ⟨.deciding, demoT3⟩ :=
  stepRel_act_eq (by rfl)

theorem demo_step3 :
    StepRel demoOracle [adderSpec] ⟨.deciding, demoT3⟩ ⟨.done, demoT4⟩ :=
  stepRel_decide_stop_eq (by rfl) (by rfl)

theorem demo_reaches :
    Reaches demoOracle [adderSpec] (initConfig "hi") ⟨.done, demoT4⟩ :=
  Relation.ReflTransGen.head demo_step1
    (Relation.ReflTransGen.head demo_step2 (Relation.ReflTransGen.single demo_step3))

/-- Witness for C1 at a concrete input: a collaborator with no tool calls
sends the first Decide step straight to END. -/
theorem decide_transition_iff_wit :
    StepRel quietOracle [adderSpec] ⟨.deciding, [Message.human "q"]⟩
      ⟨.done, [Message.human "q"] ++ call_model quietOracle [Message.human "q"]⟩ :=
  ((decide_transition_iff quietOracle [adderSpec] [Message.human "q"]).2.1).mpr rfl

/-- Witness for C2 at N = 1: one tool-call cycle yields four messages. -/
theorem transcript_length_wit :
    ∃ t, runGraph demoOracle [adderSpec] (2 * 1 + 1) (initConfig "hi") =
        .ok ⟨.done, t⟩ ∧ t.length = 1 + 2 * 1 + 1 :=
  transcript_length demoOracle [adderSpec] 1 "hi"
    (fun ms hlt => by
      have hz : countReplies ms = 0 := by omega
      simp [demoOracle, hz])
    (fun ms h1 => by simp [demoOracle, h1])

/-- Witness for C3 on the final transcript of the demonstration run. -/
theorem reachable_results_wellformed_wit : resultsWellFormed demoT4 = true :=
  reachable_results_wellformed demoOracle [adderSpec] "hi" ⟨.done, demoT4⟩ demo_reaches

/-- Witness for C5 on the first Decide step of the demonstration run. -/
theorem transcript_append_only_wit :
    ∃ new, demoT2 = (initConfig "hi").messages ++ new :=
  transcript_append_only demoOracle [adderSpec] (initConfig "hi") ⟨.acting, demoT2⟩ demo_step1

/-- Witness for C6: a collaborator that never stops calling tools hits the
ceiling after the configured number of cycles. -/
theorem cycle_limit_hard_stop_wit :
    ∃ pre, runWithLimit busyOracle [adderSpec] 1 [Message.human "q"] =
        .cycleLimitExceeded (pre ++ [replyMsg busyOracle pre]) ∧
      pre ++ [replyMsg busyOracle pre] ≠ [] ∧
      (pre ++ [replyMsg busyOracle pre]).getLast? = some (replyMsg busyOracle pre) :=
  cycle_limit_hard_stop busyOracle [adderSpec] 1 [Message.human "q"]
    (fun ms => by simp [busyOracle])

/-- Witness for C7 on a call to the unregistered tool name "sub". -/
theorem unknown_tool_recovered_wit :
    execCall [adderSpec] ⟨"sub", [], "c9"⟩ =
      .toolResult "c9" ("Error: " ++ "sub" ++ " is not a valid tool") ∧
    StepRel quietOracle [adderSpec] ⟨.acting, demoT1⟩
      ⟨.deciding, demoT1 ++ tool_node [adderSpec] demoT1⟩ := by
  have h := unknown_tool_recovered quietOracle [adderSpec] ⟨"sub", [], "c9"⟩ ?hm
  case hm =>
    intro t ht
    rw [List.mem_singleton] at ht
    subst ht
    decide
  exact ⟨h.1, h.2 demoT1⟩

/-- Witness for the amended C8 at concrete inputs: a Human-final transcript
where the attribute access fails with AttributeError, and a consultation
point of the demonstration run where should_continue succeeds. -/
theorem last_read_behavior_wit :
    ([] ++ [Message.human "q"]).getLast? = some (Message.human "q") ∧
    should_continue ([] ++ [Message.human "q"]) = .error .attributeError ∧
    should_continue ([] ++ call_model demoOracle []) = .ok Route.tools ∧
    demoT4 ≠ [] :=
  last_read_behavior demoOracle [adderSpec] "hi" [] (Message.human "q")
    ⟨.done, demoT4⟩ demo_reaches

/-- Witness for C9: two replays of the demonstration run agree. -/
theorem run_deterministic_wit : demoT4 = demoT4 :=
  run_deterministic demoOracle [adderSpec] "hi" demoT4 demoT4 demo_reaches demo_reaches

/-- Witness for the amended C10 at concrete environments. -/
theorem startup_key_check_wit :
    startup (fun _ => none) = .exited 1 ∧ startup envGood = .ready [adderSpec] :=
  ⟨(startup_key_check (fun _ => none)).1 (Or.inl rfl),
   (startup_key_check envGood).2 "abc123" rfl (by decide)⟩

end LuhAgent
